import Mathlib

/-!
Verification of the real-time location-tracking and route-recording core of a
field-sales assistant application (sources: `src/App.tsx`,
`src/unnamed/part_002`, `src/types.ts`).

Modelling conventions:
* JavaScript numbers are modelled as exact rationals (`ℚ`).
* `calculateDistance` (src/unnamed/part_002) computes the haversine
  great-circle distance using transcendental functions (`sin`, `cos`,
  `atan2`, `sqrt`).  Every piece of control logic verified here consumes
  distances only through comparisons against fixed thresholds, so the
  development is parametric in the distance function
  `dist : GeoLocation → GeoLocation → ℚ`; every theorem quantifies over
  `dist` and therefore covers the haversine instantiation.
* React `useState` / `useRef` cells become fields of explicit state records;
  each event handler becomes a pure state-transition function.
* JavaScript `Array.prototype.sort` is stable (ECMAScript 2019); it is
  modelled by `List.mergeSort`, which is stable.
* `Date.now()` and `generateId()` are passed in as explicit parameters.
-/

namespace FieldPro

/-- Geographic location (`GeoLocation` in src/types.ts).  `heading` and
`speed` are optional in the source and irrelevant to the verified logic. -/
structure GeoLocation where
  lat : ℚ
  lng : ℚ
  heading : Option ℚ := none
  speed : Option ℚ := none
deriving DecidableEq, Repr

/-- Sales area (`Area` in src/types.ts; fields not consumed by the verified
logic are omitted).  A missing `isArchived` in the source JSON is falsy, hence
`Bool` here. -/
structure Area where
  id : String
  name : String
  isArchived : Bool
deriving DecidableEq, Repr

/-- Registered shop (`Shop` in src/types.ts; UI-only fields omitted). -/
structure Shop where
  id : String
  name : String
  ownerName : String
  location : GeoLocation
  areaId : String
  isArchived : Bool
deriving DecidableEq, Repr

/-- A stop inferred from dwell behaviour (`StopPoint` in src/types.ts). -/
structure StopPoint where
  location : GeoLocation
  areaName : String
  stopNumber : ℕ
  timestamp : ℕ
deriving DecidableEq, Repr

/-- A recorded route (`SalesRoute` in src/types.ts; optional fields are
`Option`s). -/
structure SalesRoute where
  id : String
  date : String
  day : Option String := none
  customAreaName : Option String := none
  areaId : String
  path : List GeoLocation
  stops : List StopPoint
  startTime : ℕ
  endTime : Option ℕ := none
  isArchived : Bool
deriving DecidableEq, Repr

/-- The scalar Kalman filter state (`kalmanStateRef` in src/App.tsx:363):
one shared variance channel for both axes; `variance < 0` is the
uninitialized sentinel. -/
structure KalmanState where
  lat : ℚ
  lng : ℚ
  variance : ℚ
deriving DecidableEq, Repr

/-- The Kalman update (`applyKalmanFilter`, src/App.tsx:365-380).  Returns the
new filter state together with the smoothed location that the source returns
(`{ lat, lng }`). -/
def applyKalmanFilter (state : KalmanState) (newLat newLng accuracy : ℚ) :
    KalmanState × GeoLocation :=
  if state.variance < 0 then
    ({ lat := newLat, lng := newLng, variance := accuracy * accuracy },
     { lat := newLat, lng := newLng })
  else
    let q : ℚ := 1/1000000
    let r : ℚ := accuracy * accuracy
    let variance1 := state.variance + q
    let k := variance1 / (variance1 + r)
    let lat := state.lat + k * (newLat - state.lat)
    let lng := state.lng + k * (newLng - state.lng)
    let variance2 := (1 - k) * variance1
    ({ lat := lat, lng := lng, variance := variance2 },
     { lat := lat, lng := lng })

/-- Iterated Kalman updates at one constant accuracy over a list of raw
measurements (successive invocations of `applyKalmanFilter` from the
`watchPosition` callback, src/App.tsx:605). -/
def kalmanRun (st : KalmanState) (accuracy : ℚ) (ms : List (ℚ × ℚ)) :
    KalmanState :=
  ms.foldl (fun s m => (applyKalmanFilter s m.1 m.2 accuracy).1) st

/-- The accuracy fallback at the filter call site
(`pos.coords.accuracy || 10`, src/App.tsx:606): a falsy accuracy (the number
0) is replaced by 10. -/
def effectiveAccuracy (a : ℚ) : ℚ :=
  if a = 0 then 10 else a

/-- Modelled from the spec: the repository stores the radii in plain React
state (src/App.tsx:337-344) without any clamping code of its own; the
restriction of the detection radius to [1, 50] is performed by the browser's
`input type=range min=1 max=50` control declared at src/App.tsx:1221, whose
value is clamped to the nearest bound.  RangeConfig per the spec:
`setDetectionRadius(v)` clamps to [1,50]. -/
def setDetectionRadius (v : ℚ) : ℚ :=
  max 1 (min 50 v)

/-- Modelled from the spec: the nearby radius is restricted to [10, 500] by
the `input type=range min=10 max=500` control declared at src/App.tsx:1267.
RangeConfig per the spec: `setNearbyRadius(v)` clamps to [10,500]. -/
def setNearbyRadius (v : ℚ) : ℚ :=
  max 10 (min 500 v)

/-- The recorder-level state: the React state and refs mutated by
`toggleTracking` / `confirmSaveRoute` / the `watchPosition` callback
(src/App.tsx:486-516, 667-707). -/
structure RecorderState where
  isTracking : Bool
  activeRoute : Option SalesRoute
  routes : List SalesRoute
  kalman : KalmanState
  staticTimeCounter : ℕ
  lastStopCheckLoc : Option GeoLocation
  isSavingRoute : Bool
deriving DecidableEq, Repr

/-- `toggleTracking` (src/App.tsx:667-691).  When not tracking it starts a
session: resets the Kalman state to the sentinel, creates a fresh route seeded
with one path point (current location, or the Dhaka default), zeroes the dwell
counter and sets the dwell anchor; when tracking it opens the save dialog and
stops tracking.  `newId` stands for `generateId()`, `dateStr` for the
formatted date, `now` for `Date.now()`. -/
def toggleTracking (st : RecorderState) (currentLocation : Option GeoLocation)
    (newId dateStr selectedAreaId : String) (now : ℕ) : RecorderState :=
  if st.isTracking then
    { st with isSavingRoute := true, isTracking := false }
  else
    let start := currentLocation.getD { lat := 23.8103, lng := 90.4125 }
    { st with
      kalman := { lat := start.lat, lng := start.lng, variance := -1 }
      activeRoute := some
        { id := newId
          date := dateStr
          areaId := if selectedAreaId ≠ "all" then selectedAreaId else "General"
          path := [start]
          stops := []
          startTime := now
          isArchived := false }
      isTracking := true
      staticTimeCounter := 0
      lastStopCheckLoc := some start }

/-- `confirmSaveRoute` (src/App.tsx:692-707): finalizes the active route with
the user-supplied day and custom-area labels, stamps `endTime`, clears the
archived flag, prepends it to the persisted route list and returns the
recorder to the idle state.  A missing active route makes it a no-op
(the source returns early). -/
def confirmSaveRoute (st : RecorderState) (day areaName : String) (now : ℕ)
    (dateStr : String) : RecorderState :=
  match st.activeRoute with
  | none => st
  | some r =>
    let finalRoute : SalesRoute :=
      { r with
        day := some day
        customAreaName := some areaName
        endTime := some now
        date := dateStr
        isArchived := false }
    { st with
      routes := finalRoute :: st.routes
      activeRoute := none
      isSavingRoute := false }

/-- The non-archived areas (`activeAreas`, src/App.tsx:482). -/
def activeAreas (areas : List Area) : List Area :=
  areas.filter (fun a => !a.isArchived)

/-- The shops considered by every proximity computation (`activeShops`,
src/App.tsx:484): not archived, and belonging to a non-archived area. -/
def activeShops (shops : List Shop) (areas : List Area) : List Shop :=
  shops.filter (fun s =>
    !s.isArchived && (activeAreas areas).any (fun a => a.id == s.areaId))

/-- `shopsWithDistances` (src/App.tsx:559-564): each shop paired with its
distance from the current location. -/
def shopsWithDistances (dist : GeoLocation → GeoLocation → ℚ)
    (shops : List Shop) (p : GeoLocation) : List (Shop × ℚ) :=
  shops.map (fun s => (s, dist p s.location))

/-- The ascending-by-distance comparator `(a, b) => a.distance - b.distance`
used by the JavaScript stable sorts (src/App.tsx:566-576, 637). -/
def distanceLe (a b : Shop × ℚ) : Bool :=
  decide (a.2 ≤ b.2)

/-- `nearbyShops` (src/App.tsx:566-570): shops within `nearbyRange`, sorted
ascending by distance (stable sort). -/
def nearbyShops (dist : GeoLocation → GeoLocation → ℚ) (shops : List Shop)
    (p : GeoLocation) (nearbyRange : ℚ) : List (Shop × ℚ) :=
  ((shopsWithDistances dist shops p).filter
    (fun x => decide (x.2 ≤ nearbyRange))).mergeSort distanceLe

/-- `atShop` (src/App.tsx:572-576): among the shops within `detectionRange`,
the first element of the stable ascending-by-distance sort; `none` when no
shop qualifies. -/
def atShop (dist : GeoLocation → GeoLocation → ℚ) (shops : List Shop)
    (p : GeoLocation) (detectionRange : ℚ) : Option (Shop × ℚ) :=
  let withinRange := (shopsWithDistances dist shops p).filter
    (fun x => decide (x.2 ≤ detectionRange))
  (withinRange.mergeSort distanceLe).head?

/-- The minimum-distance shop among qualifiers, ties broken by original
registry order (first wins), written directly from the specification's words
for comparison with `atShop`. -/
def atShopSpec (dist : GeoLocation → GeoLocation → ℚ) (shops : List Shop)
    (p : GeoLocation) (detectionRange : ℚ) : Option (Shop × ℚ) :=
  let qualifiers := (shopsWithDistances dist shops p).filter
    (fun x => decide (x.2 ≤ detectionRange))
  qualifiers.find? (fun x => qualifiers.all (fun y => decide (x.2 ≤ y.2)))

/-- An edge-triggered proximity ENTER event (the payload of `setAlertInfo`,
src/App.tsx:618). -/
structure EnterEvent where
  shopId : String
  shopName : String
  ownerName : String
deriving DecidableEq, Repr

/-- The per-shop body of the alert loop in the `watchPosition` callback
(src/App.tsx:613-624): distance below 40 and not yet alerted emits one ENTER
event and records the shop id; distance above 100 silently removes the id;
anything in between leaves the set untouched. -/
def processShopAlert (dist : GeoLocation → GeoLocation → ℚ)
    (newLoc : GeoLocation) (alerted : Finset String) (shop : Shop) :
    Finset String × List EnterEvent :=
  let d := dist newLoc shop.location
  if d < 40 then
    if shop.id ∈ alerted then (alerted, [])
    else (insert shop.id alerted,
      [{ shopId := shop.id, shopName := shop.name, ownerName := shop.ownerName }])
  else if d > 100 then (alerted.erase shop.id, [])
  else (alerted, [])

/-- The whole alert loop (`shopsRef.current.forEach`, src/App.tsx:613-624)
over one incoming location, accumulating the emitted ENTER events. -/
def processAlerts (dist : GeoLocation → GeoLocation → ℚ)
    (newLoc : GeoLocation) (shops : List Shop) (alerted : Finset String) :
    Finset String × List EnterEvent :=
  shops.foldl (fun acc shop =>
    let r := processShopAlert dist newLoc acc.1 shop
    (r.1, acc.2 ++ r.2)) (alerted, [])

/-- The projection of a sequence of location updates onto a single shop:
`processShopAlert` applied for that shop at each successive location
(the per-shop view of successive `watchPosition` callbacks). -/
def processShopAlertRun (dist : GeoLocation → GeoLocation → ℚ) (shop : Shop)
    (locs : List GeoLocation) (alerted : Finset String) :
    Finset String × List EnterEvent :=
  locs.foldl (fun acc loc =>
    let r := processShopAlert dist loc acc.1 shop
    (r.1, acc.2 ++ r.2)) (alerted, [])

/-- The area-name resolution for a freshly emitted stop
(src/App.tsx:636-641): the shops sorted ascending by distance from the stop
location; if the nearest one is strictly within 100m its area's name is used
(JavaScript `?.name || 'Point'`: a missing area, or an area whose name is the
empty string, yields the fallback label), otherwise the generic label. -/
def stopAreaName (dist : GeoLocation → GeoLocation → ℚ) (shops : List Shop)
    (areas : List Area) (newLoc : GeoLocation) : String :=
  let shopsByD := (shops.map (fun s => (s, dist newLoc s.location))).mergeSort
    distanceLe
  match shopsByD.head? with
  | some near =>
    if near.2 < 100 then
      match areas.find? (fun a => a.id == near.1.areaId) with
      | some a => if a.name = "" then "Point" else a.name
      | none => "Point"
    else "Field Point"
  | none => "Field Point"

/-- The tracking-session state mutated while Recording: the active route's
path and stops plus the dwell refs (`staticTimeCounterRef`,
`lastStopCheckLocRef`, src/App.tsx:508-509). -/
structure TrackingState where
  path : List GeoLocation
  stops : List StopPoint
  staticTimeCounter : ℕ
  lastStopCheckLoc : Option GeoLocation
deriving DecidableEq, Repr

/-- One Recording-mode location update: the body of
`if (isTrackingRef.current && activeRouteRef.current)` in the `watchPosition`
callback (src/App.tsx:625-658).  Path sampling appends the location when it
moved at least 3m from the last path point (an empty path counts as a 100m
displacement); the dwell logic increments the counter within 15m of the
anchor, emits exactly one stop on the update where the counter reaches 3
(without resetting the counter), and otherwise resets the counter and moves
the anchor. -/
def trackingStep (dist : GeoLocation → GeoLocation → ℚ) (shops : List Shop)
    (areas : List Area) (now : ℕ) (st : TrackingState)
    (newLoc : GeoLocation) : TrackingState :=
  let displacement : ℚ := match st.path.getLast? with
    | some lastPoint => dist newLoc lastPoint
    | none => 100
  let path1 := if 3 ≤ displacement then st.path ++ [newLoc] else st.path
  match st.lastStopCheckLoc with
  | some anchor =>
    let staticDist := dist newLoc anchor
    if staticDist < 15 then
      let counter := st.staticTimeCounter + 1
      if counter = 3 then
        let newStop : StopPoint :=
          { location := newLoc
            areaName := stopAreaName dist shops areas newLoc
            stopNumber := st.stops.length + 1
            timestamp := now }
        { path := path1
          stops := st.stops ++ [newStop]
          staticTimeCounter := counter
          lastStopCheckLoc := st.lastStopCheckLoc }
      else
        { path := path1
          stops := st.stops
          staticTimeCounter := counter
          lastStopCheckLoc := st.lastStopCheckLoc }
    else
      { path := path1
        stops := st.stops
        staticTimeCounter := 0
        lastStopCheckLoc := some newLoc }
  | none =>
    { path := path1
      stops := st.stops
      staticTimeCounter := st.staticTimeCounter
      lastStopCheckLoc := some newLoc }

/-- A sequence of Recording-mode location updates, each tagged with its
`Date.now()` value. -/
def trackingRun (dist : GeoLocation → GeoLocation → ℚ) (shops : List Shop)
    (areas : List Area) (st : TrackingState) (updates : List (GeoLocation × ℕ)) :
    TrackingState :=
  updates.foldl (fun s u => trackingStep dist shops areas u.2 s u.1) st

lemma kalman_variance_of_nonneg (st : KalmanState) (lat lng acc : ℚ)
    (h : 0 ≤ st.variance) :
    (applyKalmanFilter st lat lng acc).1.variance =
      (1 - (st.variance + 1/1000000) / (st.variance + 1/1000000 + acc * acc)) *
        (st.variance + 1/1000000) := by
  simp [applyKalmanFilter, not_lt.mpr h]

lemma kalman_variance_of_sentinel (st : KalmanState) (lat lng acc : ℚ)
    (h : st.variance < 0) :
    (applyKalmanFilter st lat lng acc).1.variance = acc * acc := by
  simp [applyKalmanFilter, if_pos h]

lemma kalman_formula_bound (v q r : ℚ) (hq : 0 < q) (hv : 0 ≤ v) (hr : 0 ≤ r)
    (hinv : q * r ≤ v * (v + q)) :
    (1 - (v + q) / (v + q + r)) * (v + q) ≤ v ∧
    0 ≤ (1 - (v + q) / (v + q + r)) * (v + q) ∧
    q * r ≤ ((1 - (v + q) / (v + q + r)) * (v + q)) *
      (((1 - (v + q) / (v + q + r)) * (v + q)) + q) := by
  have hs : 0 < v + q := by linarith
  have hD : 0 < v + q + r := by linarith
  have hE : (1 - (v + q) / (v + q + r)) * (v + q) = r * (v + q) / (v + q + r) := by
    field_simp
  rw [hE]
  refine ⟨?_, ?_, ?_⟩
  · rw [div_le_iff₀ hD]
    nlinarith
  · exact div_nonneg (mul_nonneg hr hs.le) hD.le
  · have h2 : r * (v + q) / (v + q + r) * (r * (v + q) / (v + q + r) + q) =
        (r * (v + q) * (r * (v + q) + q * (v + q + r))) /
          ((v + q + r) * (v + q + r)) := by
      field_simp
    rw [h2, le_div_iff₀ (by positivity)]
    nlinarith [mul_nonneg (mul_nonneg hr hr) (sub_nonneg.mpr hinv)]

lemma kalman_step_bound (st : KalmanState) (lat lng acc : ℚ)
    (h0 : 0 ≤ st.variance)
    (hinv : 1/1000000 * (acc * acc) ≤ st.variance * (st.variance + 1/1000000)) :
    (applyKalmanFilter st lat lng acc).1.variance ≤ st.variance ∧
    0 ≤ (applyKalmanFilter st lat lng acc).1.variance ∧
    1/1000000 * (acc * acc) ≤
      (applyKalmanFilter st lat lng acc).1.variance *
        ((applyKalmanFilter st lat lng acc).1.variance + 1/1000000) := by
  rw [kalman_variance_of_nonneg st lat lng acc h0]
  exact kalman_formula_bound st.variance (1/1000000) (acc * acc) (by norm_num)
    h0 (mul_self_nonneg acc) hinv

lemma kalmanRun_invariant (acc : ℚ) (ms : List (ℚ × ℚ)) :
    ∀ st : KalmanState, 0 ≤ st.variance →
      1/1000000 * (acc * acc) ≤ st.variance * (st.variance + 1/1000000) →
      0 ≤ (kalmanRun st acc ms).variance ∧
      1/1000000 * (acc * acc) ≤
        (kalmanRun st acc ms).variance *
          ((kalmanRun st acc ms).variance + 1/1000000) := by
  induction ms with
  | nil => exact fun st h0 h1 => ⟨h0, h1⟩
  | cons m ms ih =>
    intro st h0 h1
    have hstep := kalman_step_bound st m.1 m.2 acc h0 h1
    simpa [kalmanRun] using ih _ hstep.2.1 hstep.2.2

/-- Claim C5: the position filter's state is reset to the uninitialized
sentinel (variance -1) at the start of every tracking session, and the first
update after a reset stores the raw measurement with variance = accuracy² and
returns it unchanged. -/
theorem C5_filter_reset_on_session_start (st : RecorderState)
    (cur : Option GeoLocation) (newId dateStr sel : String) (now : ℕ)
    (h : st.isTracking = false) :
    (toggleTracking st cur newId dateStr sel now).kalman.variance = -1 ∧
    (∀ (k : KalmanState) (lat lng acc : ℚ), k.variance < 0 →
      applyKalmanFilter k lat lng acc =
        ({ lat := lat, lng := lng, variance := acc * acc },
         { lat := lat, lng := lng })) := by
  constructor
  · simp [toggleTracking, h]
  · intro k lat lng acc hk
    simp [applyKalmanFilter, if_pos hk]

/-- Concrete instance of claim C5: a fresh session from an idle recorder. -/
theorem C5_filter_reset_on_session_start_witness :
    (toggleTracking
      { isTracking := false, activeRoute := none, routes := [],
        kalman := ⟨1, 2, 3⟩, staticTimeCounter := 0,
        lastStopCheckLoc := none, isSavingRoute := false }
      none "r1" "date" "all" 0).kalman.variance = -1 :=
  (C5_filter_reset_on_session_start
    { isTracking := false, activeRoute := none, routes := [],
      kalman := ⟨1, 2, 3⟩, staticTimeCounter := 0,
      lastStopCheckLoc := none, isSavingRoute := false }
    none "r1" "date" "all" 0 rfl).1

/-- Claim C7 is false as stated: a filter initialized by an update at
accuracy 1/20 (variance 1/400) followed by one update at the constant
accuracy 10 has strictly increasing variance, because the process noise added
before the gain computation exceeds the shrinkage when the prior variance is
far below the measurement variance. -/
theorem C7_variance_counterexample :
    0 ≤ ((applyKalmanFilter ⟨0, 0, -1⟩ 0 0 (1/20)).1).variance ∧
    ((applyKalmanFilter ((applyKalmanFilter ⟨0, 0, -1⟩ 0 0 (1/20)).1)
        0 0 10).1).variance >
      ((applyKalmanFilter ⟨0, 0, -1⟩ 0 0 (1/20)).1).variance := by
  norm_num [applyKalmanFilter]

/-- Claim C7 (amended): for a filter freshly reset (variance sentinel
negative) and then driven by a sequence of updates all at one constant
accuracy — the first of which initializes the state with
variance = accuracy² — the variance after each subsequent update is less than
or equal to the variance before it. -/
theorem C7_variance_nonincreasing_amended (stR : KalmanState)
    (lat lng acc : ℚ) (hR : stR.variance < 0) (ms : List (ℚ × ℚ))
    (m : ℚ × ℚ) :
    (kalmanRun (applyKalmanFilter stR lat lng acc).1 acc (ms ++ [m])).variance ≤
      (kalmanRun (applyKalmanFilter stR lat lng acc).1 acc ms).variance := by
  have hinit := kalman_variance_of_sentinel stR lat lng acc hR
  have h0 : 0 ≤ (applyKalmanFilter stR lat lng acc).1.variance := by
    rw [hinit]; exact mul_self_nonneg acc
  have h1 : 1/1000000 * (acc * acc) ≤
      (applyKalmanFilter stR lat lng acc).1.variance *
        ((applyKalmanFilter stR lat lng acc).1.variance + 1/1000000) := by
    rw [hinit]
    nlinarith [mul_self_nonneg (acc * acc)]
  have hrun := kalmanRun_invariant acc ms _ h0 h1
  have hsplit : kalmanRun (applyKalmanFilter stR lat lng acc).1 acc (ms ++ [m]) =
      (applyKalmanFilter
        (kalmanRun (applyKalmanFilter stR lat lng acc).1 acc ms)
        m.1 m.2 acc).1 := by
    simp [kalmanRun]
  rw [hsplit]
  exact (kalman_step_bound _ m.1 m.2 acc hrun.1 hrun.2).1

/-- Concrete instance of amended claim C7: reset, initialize at accuracy 1,
then one more update at accuracy 1. -/
theorem C7_variance_nonincreasing_amended_witness :
    (kalmanRun (applyKalmanFilter ⟨0, 0, -1⟩ 0 0 1).1 1 ([] ++ [(0, 0)])).variance ≤
      (kalmanRun (applyKalmanFilter ⟨0, 0, -1⟩ 0 0 1).1 1 []).variance :=
  C7_variance_nonincreasing_amended ⟨0, 0, -1⟩ 0 0 1 (by norm_num) [] (0, 0)

/-- Claim C8: the detection radius is clamped into [1, 50] and the nearby
radius into [10, 500]; out-of-range values are silently clamped to the
nearest bound, in-range values are stored unchanged, so the stored radii are
always within bounds. -/
theorem C8_radius_clamping (v w : ℚ) :
    (1 ≤ setDetectionRadius v ∧ setDetectionRadius v ≤ 50) ∧
    (v < 1 → setDetectionRadius v = 1) ∧
    (50 < v → setDetectionRadius v = 50) ∧
    (1 ≤ v → v ≤ 50 → setDetectionRadius v = v) ∧
    (10 ≤ setNearbyRadius w ∧ setNearbyRadius w ≤ 500) ∧
    (w < 10 → setNearbyRadius w = 10) ∧
    (500 < w → setNearbyRadius w = 500) ∧
    (10 ≤ w → w ≤ 500 → setNearbyRadius w = w) := by
  unfold setDetectionRadius setNearbyRadius
  refine ⟨⟨le_max_left _ _, max_le (by norm_num) (min_le_left _ _)⟩,
    ?_, ?_, ?_, ⟨le_max_left _ _, max_le (by norm_num) (min_le_left _ _)⟩,
    ?_, ?_, ?_⟩
  · intro h
    rw [min_eq_right (by linarith), max_eq_left (by linarith)]
  · intro h
    rw [min_eq_left (by linarith)]
    exact max_eq_right (by norm_num)
  · intro h1 h2
    rw [min_eq_right h2, max_eq_right h1]
  · intro h
    rw [min_eq_right (by linarith), max_eq_left (by linarith)]
  · intro h
    rw [min_eq_left (by linarith)]
    exact max_eq_right (by norm_num)
  · intro h1 h2
    rw [min_eq_right h2, max_eq_right h1]

/-- Concrete instances of claim C8: an over-range detection radius is clamped
to 50 and an under-range nearby radius is clamped to 10. -/
theorem C8_radius_clamping_witness :
    setDetectionRadius 99 = 50 ∧ setNearbyRadius 7 = 10 :=
  ⟨(C8_radius_clamping 99 7).2.2.1 (by norm_num),
   (C8_radius_clamping 99 7).2.2.2.2.2.1 (by norm_num)⟩

/-- Claim C9: the position filter is total — the call-site fallback replaces
a zero accuracy with the positive constant 10, and for every state with
non-negative variance (the invariant established at initialization and
preserved by every update) the gain's denominator is strictly positive, so no
division degeneracy is reachable. -/
theorem C9_no_division_degeneracy :
    effectiveAccuracy 0 = 10 ∧
    (∀ a : ℚ, 0 ≤ a → 0 < effectiveAccuracy a) ∧
    (∀ (st : KalmanState) (lat lng acc : ℚ), 0 ≤ st.variance →
      0 < st.variance + 1/1000000 + acc * acc ∧
      0 ≤ (applyKalmanFilter st lat lng acc).1.variance) ∧
    (∀ (st : KalmanState) (lat lng acc : ℚ), st.variance < 0 →
      (applyKalmanFilter st lat lng acc).1.variance = acc * acc ∧
      0 ≤ (applyKalmanFilter st lat lng acc).1.variance) := by
  refine ⟨rfl, ?_, ?_, ?_⟩
  · intro a ha
    unfold effectiveAccuracy
    split
    · norm_num
    · rcases lt_or_eq_of_le ha with h | h
      · exact h
      · simp_all
  · intro st lat lng acc h
    have hr : (0:ℚ) ≤ acc * acc := mul_self_nonneg acc
    refine ⟨by linarith, ?_⟩
    rw [kalman_variance_of_nonneg st lat lng acc h]
    have hs : (0:ℚ) < st.variance + 1/1000000 := by linarith
    have hD : (0:ℚ) < st.variance + 1/1000000 + acc * acc := by linarith
    have hk : (st.variance + 1/1000000) / (st.variance + 1/1000000 + acc * acc) ≤ 1 := by
      rw [div_le_one hD]
      linarith
    exact mul_nonneg (by linarith) hs.le
  · intro st lat lng acc h
    have := kalman_variance_of_sentinel st lat lng acc h
    exact ⟨this, by rw [this]; exact mul_self_nonneg acc⟩

/-- Concrete instance of claim C9: from an initialized state with variance 0,
an update at accuracy 2 has a positive gain denominator and keeps the
variance non-negative. -/
theorem C9_no_division_degeneracy_witness :
    0 < (⟨0, 0, 0⟩ : KalmanState).variance + 1/1000000 + 2 * 2 ∧
    0 ≤ (applyKalmanFilter ⟨0, 0, 0⟩ 0 0 2).1.variance :=
  C9_no_division_degeneracy.2.2.1 ⟨0, 0, 0⟩ 0 0 2 (by norm_num)

lemma processShopAlert_stay (dist : GeoLocation → GeoLocation → ℚ)
    (X : Shop) (loc : GeoLocation) (alerted : Finset String)
    (hmem : X.id ∈ alerted) (hle : dist loc X.location ≤ 100) :
    processShopAlert dist loc alerted X = (alerted, []) := by
  by_cases h1 : dist loc X.location < 40
  · simp [processShopAlert, h1, hmem]
  · have h2 : ¬ dist loc X.location > 100 := not_lt.mpr hle
    simp [processShopAlert, h1, h2]

lemma processShopAlertRun_stay (dist : GeoLocation → GeoLocation → ℚ)
    (X : Shop) (locs : List GeoLocation) :
    ∀ p : Finset String × List EnterEvent, X.id ∈ p.1 →
      (∀ loc ∈ locs, dist loc X.location ≤ 100) →
      locs.foldl (fun acc loc =>
        let r := processShopAlert dist loc acc.1 X
        (r.1, acc.2 ++ r.2)) p = p := by
  induction locs with
  | nil => intro p _ _; rfl
  | cons l ls ih =>
    intro p hmem hall
    have hstep : processShopAlert dist l p.1 X = (p.1, []) :=
      processShopAlert_stay dist X l p.1 hmem (hall l (by simp))
    rw [List.foldl_cons]
    simp only [hstep, List.append_nil, Prod.mk.eta]
    exact ih p hmem (fun loc hl => hall loc (by simp [hl]))

/-- Claim C2: for every shop X, an update at distance below 40m with X not
yet alerted adds X's id and emits exactly one ENTER event; while X stays
alerted and every observed distance is at most 100m, no event at all is
emitted and X's membership is unchanged (so no second ENTER can fire before a
reading above 100m); a reading above 100m removes X silently; a reading in
[40m, 100m] leaves everything unchanged. -/
theorem C2_enter_alert_hysteresis (dist : GeoLocation → GeoLocation → ℚ)
    (X : Shop) :
    (∀ (loc : GeoLocation) (alerted : Finset String),
      dist loc X.location < 40 → X.id ∉ alerted →
      processShopAlert dist loc alerted X =
        (insert X.id alerted,
         [{ shopId := X.id, shopName := X.name, ownerName := X.ownerName }])) ∧
    (∀ (locs : List GeoLocation) (alerted : Finset String),
      X.id ∈ alerted → (∀ loc ∈ locs, dist loc X.location ≤ 100) →
      processShopAlertRun dist X locs alerted = (alerted, [])) ∧
    (∀ (loc : GeoLocation) (alerted : Finset String),
      100 < dist loc X.location →
      processShopAlert dist loc alerted X = (alerted.erase X.id, [])) ∧
    (∀ (loc : GeoLocation) (alerted : Finset String),
      40 ≤ dist loc X.location → dist loc X.location ≤ 100 →
      processShopAlert dist loc alerted X = (alerted, [])) := by
  refine ⟨?_, ?_, ?_, ?_⟩
  · intro loc alerted hd hmem
    simp [processShopAlert, hd, hmem]
  · intro locs alerted hmem hall
    exact processShopAlertRun_stay dist X locs (alerted, []) hmem hall
  · intro loc alerted hd
    have h40 : ¬ dist loc X.location < 40 := by linarith
    simp [processShopAlert, h40, hd]
  · intro loc alerted h40 h100
    have h40n : ¬ dist loc X.location < 40 := by linarith
    have h100n : ¬ dist loc X.location > 100 := by linarith
    simp [processShopAlert, h40n, h100n]

/-- Concrete instance of claim C2: a first reading at distance 0 of an
unalerted shop adds it to the set and emits exactly one ENTER event. -/
theorem C2_enter_alert_hysteresis_witness :
    processShopAlert (fun _ _ => 0) ⟨0, 0, none, none⟩ ∅
        ⟨"s1", "Shop One", "Owner One", ⟨0, 0, none, none⟩, "a1", false⟩ =
      ({"s1"}, [{ shopId := "s1", shopName := "Shop One",
                  ownerName := "Owner One" }]) := by
  have h := (C2_enter_alert_hysteresis (fun _ _ => 0)
    ⟨"s1", "Shop One", "Owner One", ⟨0, 0, none, none⟩, "a1", false⟩).1
    ⟨0, 0, none, none⟩ ∅ (by norm_num) (by simp)
  simpa using h

/-- Claim C6: finalizing from Recording (an active route with non-empty path,
tracking already stopped into the save dialog) produces a route with
`endTime` stamped to the finalize time, `isArchived = false` and the supplied
day and custom-area labels, prepended to the saved routes; the recorder
returns to Idle (no active route, not tracking), so a subsequent start
succeeds and seeds a fresh one-point route. -/
theorem C6_finalize_route (st : RecorderState) (r : SalesRoute)
    (day areaName dateStr : String) (now : ℕ)
    (h1 : st.activeRoute = some r) (h2 : st.isTracking = false)
    (h3 : r.path ≠ []) :
    (confirmSaveRoute st day areaName now dateStr).routes.head? = some
      { r with
        day := some day
        customAreaName := some areaName
        endTime := some now
        date := dateStr
        isArchived := false } ∧
    (confirmSaveRoute st day areaName now dateStr).activeRoute = none ∧
    (confirmSaveRoute st day areaName now dateStr).isTracking = false ∧
    (∀ (cur : Option GeoLocation) (newId dateStr2 sel : String) (now2 : ℕ),
      (toggleTracking (confirmSaveRoute st day areaName now dateStr)
          cur newId dateStr2 sel now2).isTracking = true ∧
      ∃ nr, (toggleTracking (confirmSaveRoute st day areaName now dateStr)
          cur newId dateStr2 sel now2).activeRoute = some nr ∧
        nr.path.length = 1) := by
  refine ⟨?_, ?_, ?_, ?_⟩
  · simp [confirmSaveRoute, h1]
  · simp [confirmSaveRoute, h1]
  · simp [confirmSaveRoute, h1, h2]
  · intro cur newId dateStr2 sel now2
    have hidle : (confirmSaveRoute st day areaName now dateStr).isTracking = false := by
      simp [confirmSaveRoute, h1, h2]
    constructor
    · simp [toggleTracking, hidle]
    · refine ⟨{ id := newId
                date := dateStr2
                areaId := if sel ≠ "all" then sel else "General"
                path := [cur.getD { lat := 23.8103, lng := 90.4125 }]
                stops := []
                startTime := now2
                isArchived := false }, ?_, rfl⟩
      simp [toggleTracking, hidle]

/-- Concrete instance of claim C6: finalizing a one-point route attaches the
labels and stamps the end time. -/
theorem C6_finalize_route_witness :
    (confirmSaveRoute
      { isTracking := false
        activeRoute := some
          { id := "r1"
            date := "d0"
            areaId := "General"
            path := [⟨0, 0, none, none⟩]
            stops := []
            startTime := 0
            isArchived := false }
        routes := []
        kalman := ⟨0, 0, -1⟩
        staticTimeCounter := 0
        lastStopCheckLoc := none
        isSavingRoute := true }
      "Saturday" "Uttara Trip" 5 "d1").routes.head? = some
      { id := "r1"
        date := "d1"
        day := some "Saturday"
        customAreaName := some "Uttara Trip"
        areaId := "General"
        path := [⟨0, 0, none, none⟩]
        stops := []
        startTime := 0
        endTime := some 5
        isArchived := false } := by
  have h := (C6_finalize_route
    { isTracking := false
      activeRoute := some
        { id := "r1"
          date := "d0"
          areaId := "General"
          path := [⟨0, 0, none, none⟩]
          stops := []
          startTime := 0
          isArchived := false }
      routes := []
      kalman := ⟨0, 0, -1⟩
      staticTimeCounter := 0
      lastStopCheckLoc := none
      isSavingRoute := true }
    { id := "r1"
      date := "d0"
      areaId := "General"
      path := [⟨0, 0, none, none⟩]
      stops := []
      startTime := 0
      isArchived := false }
    "Saturday" "Uttara Trip" "d1" 5 rfl rfl (by simp)).1
  simpa using h

lemma trackingStep_path (dist : GeoLocation → GeoLocation → ℚ)
    (shops : List Shop) (areas : List Area) (now : ℕ) (st : TrackingState)
    (newLoc : GeoLocation) :
    (trackingStep dist shops areas now st newLoc).path =
      if 3 ≤ (match st.path.getLast? with
              | some lastPoint => dist newLoc lastPoint
              | none => (100 : ℚ)) then st.path ++ [newLoc] else st.path := by
  rcases hA : st.lastStopCheckLoc with _ | A
  · simp [trackingStep, hA]
  · simp only [trackingStep, hA]
    split_ifs <;> rfl

lemma trackingStep_path_length (dist : GeoLocation → GeoLocation → ℚ)
    (shops : List Shop) (areas : List Area) (now : ℕ) (st : TrackingState)
    (newLoc : GeoLocation) :
    st.path.length ≤ (trackingStep dist shops areas now st newLoc).path.length := by
  rw [trackingStep_path]
  split_ifs <;> simp

lemma trackingStep_dwell (dist : GeoLocation → GeoLocation → ℚ)
    (shops : List Shop) (areas : List Area) (now : ℕ) (st : TrackingState)
    (newLoc A : GeoLocation) (hA : st.lastStopCheckLoc = some A)
    (hd : dist newLoc A < 15) :
    (trackingStep dist shops areas now st newLoc).staticTimeCounter =
      st.staticTimeCounter + 1 ∧
    (trackingStep dist shops areas now st newLoc).lastStopCheckLoc = some A ∧
    (st.staticTimeCounter + 1 = 3 →
      (trackingStep dist shops areas now st newLoc).stops = st.stops ++
        [{ location := newLoc, areaName := stopAreaName dist shops areas newLoc,
           stopNumber := st.stops.length + 1, timestamp := now }]) ∧
    (st.staticTimeCounter + 1 ≠ 3 →
      (trackingStep dist shops areas now st newLoc).stops = st.stops) := by
  by_cases hc : st.staticTimeCounter + 1 = 3
  · simp [trackingStep, hA, hd, hc]
  · simp [trackingStep, hA, hd, hc]

lemma trackingRun_no_more_stops (dist : GeoLocation → GeoLocation → ℚ)
    (shops : List Shop) (areas : List Area)
    (updates : List (GeoLocation × ℕ)) :
    ∀ (st : TrackingState) (A : GeoLocation), st.lastStopCheckLoc = some A →
      3 ≤ st.staticTimeCounter → (∀ u ∈ updates, dist u.1 A < 15) →
      (trackingRun dist shops areas st updates).stops = st.stops := by
  induction updates with
  | nil => intro st A _ _ _; rfl
  | cons u us ih =>
    intro st A hA hc hall
    have hd : dist u.1 A < 15 := hall u (by simp)
    obtain ⟨h1, h2, h3, h4⟩ := trackingStep_dwell dist shops areas u.2 st u.1 A hA hd
    have hne : st.staticTimeCounter + 1 ≠ 3 := by omega
    have hrest := ih (trackingStep dist shops areas u.2 st u.1) A h2
      (by rw [h1]; omega) (fun v hv => hall v (by simp [hv]))
    simp only [trackingRun, List.foldl_cons] at hrest ⊢
    rw [hrest, h4 hne]

lemma trackingRun_path_static (dist : GeoLocation → GeoLocation → ℚ)
    (shops : List Shop) (areas : List Area)
    (updates : List (GeoLocation × ℕ)) :
    ∀ (st : TrackingState) (lp : GeoLocation), st.path.getLast? = some lp →
      (∀ u ∈ updates, dist u.1 lp < 3) →
      (trackingRun dist shops areas st updates).path = st.path := by
  induction updates with
  | nil => intro st lp _ _; rfl
  | cons u us ih =>
    intro st lp hlp hall
    have hstep : (trackingStep dist shops areas u.2 st u.1).path = st.path := by
      rw [trackingStep_path]
      simp only [hlp]
      rw [if_neg (not_le.mpr (hall u (by simp)))]
    have hlp2 : (trackingStep dist shops areas u.2 st u.1).path.getLast? = some lp := by
      rw [hstep]; exact hlp
    have hrest := ih (trackingStep dist shops areas u.2 st u.1) lp hlp2
      (fun v hv => hall v (by simp [hv]))
    simp only [trackingRun, List.foldl_cons] at hrest ⊢
    rw [hrest, hstep]

/-- Claim C1: while Recording, an update within 15m of the dwell anchor
increments the dwell counter and keeps the anchor; on the update where the
counter reaches exactly 3, exactly one StopPoint is appended, with
`stopNumber = stops.length + 1`, `timestamp = now` and the area name resolved
from the nearest shop when it is within 100m (else the generic label, see
`stopAreaName`); on any other within-15m update the stops are unchanged; and
since the counter is not reset after emission, every further consecutive
update within 15m of the same anchor (counter already at least 3) emits no
additional StopPoint. -/
theorem C1_stop_emission (dist : GeoLocation → GeoLocation → ℚ)
    (shops : List Shop) (areas : List Area) (now : ℕ) (st : TrackingState)
    (newLoc A : GeoLocation) (hA : st.lastStopCheckLoc = some A)
    (hd : dist newLoc A < 15) :
    (trackingStep dist shops areas now st newLoc).staticTimeCounter =
      st.staticTimeCounter + 1 ∧
    (trackingStep dist shops areas now st newLoc).lastStopCheckLoc = some A ∧
    (st.staticTimeCounter + 1 = 3 →
      (trackingStep dist shops areas now st newLoc).stops = st.stops ++
        [{ location := newLoc, areaName := stopAreaName dist shops areas newLoc,
           stopNumber := st.stops.length + 1, timestamp := now }]) ∧
    (st.staticTimeCounter + 1 ≠ 3 →
      (trackingStep dist shops areas now st newLoc).stops = st.stops) ∧
    (∀ updates : List (GeoLocation × ℕ),
      (∀ u ∈ updates, dist u.1 A < 15) →
      3 ≤ st.staticTimeCounter + 1 →
      (trackingRun dist shops areas
          (trackingStep dist shops areas now st newLoc) updates).stops =
        (trackingStep dist shops areas now st newLoc).stops) := by
  obtain ⟨h1, h2, h3, h4⟩ := trackingStep_dwell dist shops areas now st newLoc A hA hd
  refine ⟨h1, h2, h3, h4, ?_⟩
  intro updates hall hge
  exact trackingRun_no_more_stops dist shops areas updates _ A h2
    (by rw [h1]; omega) hall

/-- Concrete instance of claim C1: with the counter at 2, an update within
15m of the anchor emits exactly one stop numbered 1 with the generic label
(empty registry), and two further within-15m updates emit nothing more. -/
theorem C1_stop_emission_witness :
    (trackingStep (fun _ _ => 0) [] [] 7
        ⟨[⟨0, 0, none, none⟩], [], 2, some ⟨0, 0, none, none⟩⟩
        ⟨0, 0, none, none⟩).stops =
      [{ location := ⟨0, 0, none, none⟩, areaName := "Field Point",
         stopNumber := 1, timestamp := 7 }] ∧
    (trackingRun (fun _ _ => 0) [] []
        (trackingStep (fun _ _ => 0) [] [] 7
          ⟨[⟨0, 0, none, none⟩], [], 2, some ⟨0, 0, none, none⟩⟩
          ⟨0, 0, none, none⟩)
        [(⟨0, 0, none, none⟩, 8), (⟨0, 0, none, none⟩, 9)]).stops =
      (trackingStep (fun _ _ => 0) [] [] 7
        ⟨[⟨0, 0, none, none⟩], [], 2, some ⟨0, 0, none, none⟩⟩
        ⟨0, 0, none, none⟩).stops := by
  have h := C1_stop_emission (fun _ _ => 0) [] [] 7
    ⟨[⟨0, 0, none, none⟩], [], 2, some ⟨0, 0, none, none⟩⟩
    ⟨0, 0, none, none⟩ ⟨0, 0, none, none⟩ rfl (by norm_num)
  constructor
  · have h3 := h.2.2.1 rfl
    simpa [stopAreaName] using h3
  · exact h.2.2.2.2 [(⟨0, 0, none, none⟩, 8), (⟨0, 0, none, none⟩, 9)]
      (by intro u hu; fin_cases hu <;> norm_num) (by decide)

/-- Claim C3: while Recording, a location update appends to the path exactly
when its distance to the last path point is at least 3m (and leaves the path
unchanged exactly when it is below 3m); the path length never decreases under
any update; a sequence of updates each below 3m from the prior accepted point
leaves the path at its initial length; and a session starts with a path
seeded with exactly one point. -/
theorem C3_path_sampling (dist : GeoLocation → GeoLocation → ℚ)
    (shops : List Shop) (areas : List Area) (now : ℕ) (st : TrackingState)
    (newLoc lp : GeoLocation) (hlp : st.path.getLast? = some lp) :
    ((trackingStep dist shops areas now st newLoc).path =
        st.path ++ [newLoc] ↔ 3 ≤ dist newLoc lp) ∧
    ((trackingStep dist shops areas now st newLoc).path = st.path ↔
        dist newLoc lp < 3) ∧
    (∀ (st2 : TrackingState) (now2 : ℕ) (loc2 : GeoLocation),
      st2.path.length ≤ (trackingStep dist shops areas now2 st2 loc2).path.length) ∧
    (∀ updates : List (GeoLocation × ℕ), (∀ u ∈ updates, dist u.1 lp < 3) →
      (trackingRun dist shops areas st updates).path = st.path) ∧
    (∀ (rst : RecorderState) (cur : Option GeoLocation)
        (newId dateStr sel : String) (t : ℕ), rst.isTracking = false →
      ∃ nr, (toggleTracking rst cur newId dateStr sel t).activeRoute = some nr ∧
        nr.path.length = 1) := by
  have hp : (trackingStep dist shops areas now st newLoc).path =
      if 3 ≤ dist newLoc lp then st.path ++ [newLoc] else st.path := by
    rw [trackingStep_path]
    simp only [hlp]
  refine ⟨?_, ?_, ?_, ?_, ?_⟩
  · constructor
    · intro he
      by_contra hlt
      rw [hp, if_neg hlt] at he
      have := congrArg List.length he
      simp at this
    · intro h3
      rw [hp, if_pos h3]
  · constructor
    · intro he
      by_contra hge
      rw [hp, if_pos (not_lt.mp hge)] at he
      have := congrArg List.length he
      simp at this
    · intro hlt
      rw [hp, if_neg (not_le.mpr hlt)]
  · intro st2 now2 loc2
    exact trackingStep_path_length dist shops areas now2 st2 loc2
  · intro updates hall
    exact trackingRun_path_static dist shops areas updates st lp hlp hall
  · intro rst cur newId dateStr sel t hidle
    refine ⟨{ id := newId
              date := dateStr
              areaId := if sel ≠ "all" then sel else "General"
              path := [cur.getD { lat := 23.8103, lng := 90.4125 }]
              stops := []
              startTime := t
              isArchived := false }, ?_, rfl⟩
    simp [toggleTracking, hidle]

/-- Concrete instance of claim C3: a sub-3m update leaves the one-point path
unchanged. -/
theorem C3_path_sampling_witness :
    (trackingStep (fun _ _ => 0) [] [] 0
        ⟨[⟨0, 0, none, none⟩], [], 0, none⟩ ⟨1, 1, none, none⟩).path =
      [⟨0, 0, none, none⟩] :=
  ((C3_path_sampling (fun _ _ => 0) [] [] 0
    ⟨[⟨0, 0, none, none⟩], [], 0, none⟩ ⟨1, 1, none, none⟩
    ⟨0, 0, none, none⟩ rfl).2.1).mpr (by norm_num)

lemma find?_congr_mem {α : Type} {p q : α → Bool} :
    ∀ l : List α, (∀ x ∈ l, p x = q x) → l.find? p = l.find? q := by
  intro l
  induction l with
  | nil => intro _; rfl
  | cons a t ih =>
    intro h
    have ha := h a (by simp)
    by_cases hpa : p a = true
    · rw [List.find?_cons_of_pos _ hpa, List.find?_cons_of_pos _ (ha ▸ hpa)]
    · rw [List.find?_cons_of_neg _ (by simpa using hpa),
        List.find?_cons_of_neg _ (by rw [← ha]; simpa using hpa)]
      exact ih (fun x hx => h x (by simp [hx]))

lemma head?_mergeSort_min {α : Type} (k : α → ℚ) :
    ∀ q : List α,
      (q.mergeSort (fun a b => decide (k a ≤ k b))).head? =
        q.find? (fun x => q.all (fun y => decide (k x ≤ k y))) := by
  have htrans : ∀ a b c : α, decide (k a ≤ k b) = true →
      decide (k b ≤ k c) = true → decide (k a ≤ k c) = true := by
    intro a b c hab hbc
    simp only [decide_eq_true_eq] at *
    exact le_trans hab hbc
  have htotal : ∀ a b : α, (decide (k a ≤ k b) || decide (k b ≤ k a)) = true := by
    intro a b
    simpa using le_total (k a) (k b)
  intro q
  induction q with
  | nil => simp
  | cons a t ih =>
    obtain ⟨l₁, l₂, h1, h2, h3⟩ := List.mergeSort_cons htrans htotal a t
    cases l₁ with
    | nil =>
      simp only [List.nil_append] at h1 h2
      have hsorted := List.sorted_mergeSort htrans htotal (a :: t)
      rw [h1] at hsorted
      have hperm : l₂.Perm t := by
        have hp := List.mergeSort_perm (a :: t) (fun a b => decide (k a ≤ k b))
        rw [h1] at hp
        exact hp.cons_inv
      have hmin : ∀ y ∈ a :: t, k a ≤ k y := by
        intro y hy
        rcases List.mem_cons.mp hy with rfl | hyt
        · exact le_refl _
        · have hy2 : y ∈ l₂ := hperm.symm.subset hyt
          have := (List.pairwise_cons.mp hsorted).1 y hy2
          simpa using this
      rw [h1]
      rw [List.find?_cons_of_pos _ (by simpa using hmin)]
      rfl
    | cons b l₁t =>
      have hba : ¬ (k a ≤ k b) := by simpa using h3 b (by simp)
      have hbt : b ∈ t := by
        have hp := List.mergeSort_perm t (fun a b => decide (k a ≤ k b))
        rw [h2] at hp
        exact hp.subset (by simp)
      have hpredafalse :
          ((a :: t).all (fun y => decide (k a ≤ k y))) = false := by
        rw [List.all_eq_false]
        exact ⟨b, by simp [hbt], by simpa using hba⟩
      rw [h1]
      rw [List.find?_cons_of_neg _ (by simp [hpredafalse])]
      have hcongr : t.find? (fun x => (a :: t).all (fun y => decide (k x ≤ k y))) =
          t.find? (fun x => t.all (fun y => decide (k x ≤ k y))) := by
        apply find?_congr_mem
        intro x hx
        simp only [List.all_cons]
        by_cases hxt : t.all (fun y => decide (k x ≤ k y)) = true
        · have hxb : k x ≤ k b := by
            have := List.all_eq_true.mp hxt b hbt
            simpa using this
          have hxa : k x ≤ k a := le_trans hxb (le_of_not_le hba)
          simp [hxt, hxa]
        · have hxf : t.all (fun y => decide (k x ≤ k y)) = false := by
            simpa using hxt
          simp [hxf]
      rw [hcongr, ← ih, h2]
      rfl

lemma atShop_eq_spec (dist : GeoLocation → GeoLocation → ℚ)
    (shops : List Shop) (p : GeoLocation) (r : ℚ) :
    atShop dist shops p r = atShopSpec dist shops p r := by
  simp only [atShop, atShopSpec]
  exact head?_mergeSort_min (fun x : Shop × ℚ => x.2) _

lemma atShop_mem_min (dist : GeoLocation → GeoLocation → ℚ)
    (shops : List Shop) (p : GeoLocation) (r : ℚ) (x : Shop × ℚ)
    (h : atShop dist shops p r = some x) :
    x.1 ∈ shops ∧ x.2 = dist p x.1.location ∧ x.2 ≤ r ∧
      ∀ t ∈ shops, dist p t.location ≤ r → x.2 ≤ dist p t.location := by
  rw [atShop_eq_spec] at h
  simp only [atShopSpec] at h
  have hmem := List.mem_of_find?_eq_some h
  have hpred := List.find?_some h
  rw [List.mem_filter] at hmem
  obtain ⟨hmemq, hler⟩ := hmem
  simp only [shopsWithDistances, List.mem_map] at hmemq
  obtain ⟨s0, hs0, hx⟩ := hmemq
  refine ⟨?_, ?_, by simpa using hler, ?_⟩
  · rw [← hx]; exact hs0
  · rw [← hx]
  · intro t ht htr
    have htq : (t, dist p t.location) ∈
        ((shopsWithDistances dist shops p).filter (fun y => decide (y.2 ≤ r))) := by
      rw [List.mem_filter]
      exact ⟨List.mem_map.mpr ⟨t, ht, rfl⟩, by simpa using htr⟩
    have := List.all_eq_true.mp hpred _ htq
    simpa using this

lemma atShop_isSome_iff (dist : GeoLocation → GeoLocation → ℚ)
    (shops : List Shop) (p : GeoLocation) (r : ℚ) :
    (atShop dist shops p r).isSome ↔ ∃ s ∈ shops, dist p s.location ≤ r := by
  simp only [atShop]
  rw [List.head?_isSome]
  constructor
  · intro hne
    by_contra hnex
    push_neg at hnex
    apply hne
    have hq : (shopsWithDistances dist shops p).filter (fun x => decide (x.2 ≤ r)) = [] := by
      rw [List.filter_eq_nil_iff]
      intro y hy
      simp only [shopsWithDistances, List.mem_map] at hy
      obtain ⟨s0, hs0, hx⟩ := hy
      rw [← hx]
      simpa using hnex s0 hs0
    rw [hq, List.mergeSort_nil]
  · rintro ⟨s0, hs0, hle⟩
    intro hnil
    have hmem : (s0, dist p s0.location) ∈
        (shopsWithDistances dist shops p).filter (fun x => decide (x.2 ≤ r)) := by
      rw [List.mem_filter]
      exact ⟨List.mem_map.mpr ⟨s0, hs0, rfl⟩, by simpa using hle⟩
    have hperm := List.mergeSort_perm
      ((shopsWithDistances dist shops p).filter (fun x => decide (x.2 ≤ r))) distanceLe
    rw [hnil] at hperm
    exact absurd hmem (by rw [hperm.symm.eq_nil]; simp)

lemma nearbyShops_mem (dist : GeoLocation → GeoLocation → ℚ)
    (shops : List Shop) (p : GeoLocation) (nr : ℚ) (x : Shop × ℚ)
    (h : x ∈ nearbyShops dist shops p nr) :
    x.1 ∈ shops ∧ x.2 = dist p x.1.location ∧ x.2 ≤ nr := by
  simp only [nearbyShops] at h
  have hq := (List.mergeSort_perm _ distanceLe).subset h
  rw [List.mem_filter] at hq
  obtain ⟨hmemq, hle⟩ := hq
  simp only [shopsWithDistances, List.mem_map] at hmemq
  obtain ⟨s0, hs0, hx⟩ := hmemq
  refine ⟨?_, ?_, by simpa using hle⟩
  · rw [← hx]; exact hs0
  · rw [← hx]

lemma processShopAlert_event_eq (dist : GeoLocation → GeoLocation → ℚ)
    (loc : GeoLocation) (A : Finset String) (sh : Shop) (e : EnterEvent)
    (he : e ∈ (processShopAlert dist loc A sh).2) :
    e = { shopId := sh.id, shopName := sh.name, ownerName := sh.ownerName } := by
  simp only [processShopAlert] at he
  split_ifs at he <;> simp_all

lemma processAlerts_events_mem (dist : GeoLocation → GeoLocation → ℚ)
    (newLoc : GeoLocation) :
    ∀ (shops : List Shop) (p : Finset String × List EnterEvent) (e : EnterEvent),
      e ∈ (shops.foldl (fun acc shop =>
        let r := processShopAlert dist newLoc acc.1 shop
        (r.1, acc.2 ++ r.2)) p).2 →
      e ∈ p.2 ∨ ∃ t ∈ shops,
        e = { shopId := t.id, shopName := t.name, ownerName := t.ownerName } := by
  intro shops
  induction shops with
  | nil => intro p e he; exact Or.inl he
  | cons sh rest ih =>
    intro p e he
    rw [List.foldl_cons] at he
    rcases ih _ e he with hin | ⟨t, ht, hev⟩
    · rcases List.mem_append.mp hin with h | h
      · exact Or.inl h
      · exact Or.inr ⟨sh, by simp,
          processShopAlert_event_eq dist newLoc p.1 sh e h⟩
    · exact Or.inr ⟨t, by simp [ht], hev⟩

lemma shop_not_mem_activeShops (shops : List Shop) (areas : List Area)
    (s : Shop)
    (hs : s.isArchived = true ∨ ∀ a ∈ areas, a.id = s.areaId → a.isArchived = true) :
    s ∉ activeShops shops areas := by
  intro hmem
  simp only [activeShops, List.mem_filter, Bool.and_eq_true] at hmem
  obtain ⟨-, hnarch, hany⟩ := hmem
  rcases hs with h | h
  · simp [h] at hnarch
  · rw [List.any_eq_true] at hany
    obtain ⟨a, ha, haid⟩ := hany
    simp only [activeAreas, List.mem_filter] at ha
    obtain ⟨hain, hanarch⟩ := ha
    have haeq : a.id = s.areaId := by simpa using haid
    have := h a hain haeq
    simp [this] at hanarch

/-- Claim C4: `atShop` equals the specification's argmin-with-first-wins-ties
selection (`atShopSpec`, the first qualifier of minimal distance in registry
order); it is non-none exactly when some shop is within the detection radius;
a returned shop is a member of the registry, within the radius, and of
minimal distance among qualifiers; and an empty registry always yields
none. -/
theorem C4_atShop_argmin (dist : GeoLocation → GeoLocation → ℚ)
    (shops : List Shop) (p : GeoLocation) (r : ℚ) :
    atShop dist shops p r = atShopSpec dist shops p r ∧
    ((atShop dist shops p r).isSome ↔ ∃ s ∈ shops, dist p s.location ≤ r) ∧
    (∀ x : Shop × ℚ, atShop dist shops p r = some x →
      x.1 ∈ shops ∧ x.2 = dist p x.1.location ∧ x.2 ≤ r ∧
      ∀ t ∈ shops, dist p t.location ≤ r → x.2 ≤ dist p t.location) ∧
    atShop dist [] p r = none :=
  ⟨atShop_eq_spec dist shops p r, atShop_isSome_iff dist shops p r,
   fun x h => atShop_mem_min dist shops p r x h,
   by simp [atShop, shopsWithDistances]⟩

/-- Concrete instance of claim C4: with one shop at distance 5 and radius 10,
`atShop` finds a shop. -/
theorem C4_atShop_argmin_witness :
    (atShop (fun _ _ => 5)
      [⟨"s1", "Shop One", "Owner One", ⟨1, 1, none, none⟩, "a1", false⟩]
      ⟨0, 0, none, none⟩ 10).isSome :=
  (C4_atShop_argmin (fun _ _ => 5)
    [⟨"s1", "Shop One", "Owner One", ⟨1, 1, none, none⟩, "a1", false⟩]
    ⟨0, 0, none, none⟩ 10).2.1.mpr
    ⟨⟨"s1", "Shop One", "Owner One", ⟨1, 1, none, none⟩, "a1", false⟩,
     by simp, by norm_num⟩

/-- Claim C10: an archived shop, or a shop all of whose areas are archived,
is excluded from `activeShops` and therefore is never returned by `atShop`
or `nearbyShops` over the active registry and never generates an ENTER
event, regardless of distance: every emitted event originates from a member
of `activeShops`, none of which is the excluded shop. -/
theorem C10_archived_shops_excluded (shops : List Shop) (areas : List Area)
    (s : Shop)
    (hs : s.isArchived = true ∨ ∀ a ∈ areas, a.id = s.areaId → a.isArchived = true) :
    s ∉ activeShops shops areas ∧
    (∀ (dist : GeoLocation → GeoLocation → ℚ) (p : GeoLocation) (r : ℚ)
        (x : Shop × ℚ),
      atShop dist (activeShops shops areas) p r = some x → x.1 ≠ s) ∧
    (∀ (dist : GeoLocation → GeoLocation → ℚ) (p : GeoLocation) (r : ℚ)
        (x : Shop × ℚ),
      x ∈ nearbyShops dist (activeShops shops areas) p r → x.1 ≠ s) ∧
    (∀ (dist : GeoLocation → GeoLocation → ℚ) (p : GeoLocation)
        (alerted : Finset String) (e : EnterEvent),
      e ∈ (processAlerts dist p (activeShops shops areas) alerted).2 →
      ∃ t ∈ activeShops shops areas, t ≠ s ∧
        e = { shopId := t.id, shopName := t.name, ownerName := t.ownerName }) := by
  have hnot := shop_not_mem_activeShops shops areas s hs
  refine ⟨hnot, ?_, ?_, ?_⟩
  · intro dist p r x hx
    have := (atShop_mem_min dist (activeShops shops areas) p r x hx).1
    intro heq
    rw [heq] at this
    exact hnot this
  · intro dist p r x hx
    have := (nearbyShops_mem dist (activeShops shops areas) p r x hx).1
    intro heq
    rw [heq] at this
    exact hnot this
  · intro dist p alerted e he
    have := processAlerts_events_mem dist p (activeShops shops areas)
      (alerted, []) e he
    rcases this with h | ⟨t, ht, hev⟩
    · simp at h
    · refine ⟨t, ht, ?_, hev⟩
      intro heq
      rw [heq] at ht
      exact hnot ht

/-- Concrete instance of claim C10: an archived shop is not an active shop. -/
theorem C10_archived_shops_excluded_witness :
    (⟨"s0", "Shop Zero", "Owner Zero", ⟨0, 0, none, none⟩, "a0", true⟩ : Shop) ∉
      activeShops
        [⟨"s0", "Shop Zero", "Owner Zero", ⟨0, 0, none, none⟩, "a0", true⟩] [] :=
  (C10_archived_shops_excluded
    [⟨"s0", "Shop Zero", "Owner Zero", ⟨0, 0, none, none⟩, "a0", true⟩] []
    ⟨"s0", "Shop Zero", "Owner Zero", ⟨0, 0, none, none⟩, "a0", true⟩
    (Or.inl rfl)).1

end FieldPro
